import Mathlib

/-!
Verification development for the exoplanet candidate analysis backend
(`back-end/app.py`).  The Flask endpoints are embedded as pure Lean
functions over an explicit tabular data model: `analyze_disposition`,
`predict`, `visualize_data` and `analyze_light_curve` become
`analyzeDisposition`, `predict`, `visualize` and `analyzeLightCurve`.
Machine floats are modelled as exact rationals; the discrete Fourier
transform is modelled over the reals/complexes.  Pre-fitted model and
scaler artifacts are opaque in the source (joblib pickles), so they are
parameters here (`Model`, `Scaler`).
-/

set_option maxHeartbeats 1000000
set_option maxRecDepth 16384

namespace Exo

/-- A single table cell as produced by `pd.read_csv`: a numeric value, a
string value, or missing (NaN). -/
inductive Cell where
  | num (q : ℚ)
  | str (s : String)
  | na
  deriving DecidableEq

/-- Missing test, as used by `DataFrame.dropna`. -/
def Cell.isNa : Cell → Bool
  | .na => true
  | _ => false

/-- Numeric test: the cell holds a number. -/
def Cell.isNum : Cell → Bool
  | .num _ => true
  | _ => false

/-- Numeric view of a cell (only used on cells guarded to be numeric). -/
def Cell.toRat : Cell → ℚ
  | .num q => q
  | _ => 0

/-- Pandas `cell == "CONFIRMED"` with elementwise-equality semantics:
NaN and numbers compare unequal to the string. -/
def Cell.isConfirmed : Cell → Bool
  | .str s => s == "CONFIRMED"
  | _ => false

/-- An in-memory table parsed from the uploaded CSV: a header (column
names) and rows of cells, one cell per column. -/
structure DataFrame where
  cols : List String
  rows : List (List Cell)

/-- The cell of row `i` in column `c` (missing column or out-of-range
access yields NaN; column lookups are guarded before use, mirroring the
source's explicit column checks). -/
def cellAt (df : DataFrame) (i : ℕ) (c : String) : Cell :=
  match df.cols.findIdx? (fun c2 => c2 == c) with
  | none => .na
  | some j => ((df.rows.getD i []).getD j .na)

/-- Pandas `df.dropna(subset=cols).index`: the (original) indices of the rows
that have no missing value in any of the listed columns. -/
def validIndices (df : DataFrame) (cols : List String) : List ℕ :=
  (List.range df.rows.length).filter (fun i => cols.all (fun c => !(cellAt df i c).isNa))

/-- Rows at the listed indices all hold numbers in the listed columns
(the implicit precondition for `scaler.transform` / `pd.cut` to succeed;
its failure is the generic caught-exception path). -/
def numericOn (df : DataFrame) (idx : List ℕ) (cols : List String) : Bool :=
  idx.all (fun i => cols.all (fun c => (cellAt df i c).isNum))

/-- The fixed registry of model names (`MODEL_NAMES` in the source). -/
def MODEL_NAMES : List String :=
  ["RandomForest", "LogisticRegression", "SVM", "DecisionTree", "NaiveBayes"]

/-- The five required feature columns (`required_features` in the source). -/
def requiredFeatures : List String :=
  ["koi_period", "koi_duration", "koi_depth", "koi_insol", "koi_prad"]

/-- An opaque fitted classifier: scaled feature row to 0/1 label. -/
abbrev Model := List ℚ → Bool

/-- The opaque fitted feature scaler, applied row-wise. -/
abbrev Scaler := List ℚ → List ℚ

/-- Process-global model/scaler state (`models`, `scaler` in the source). -/
structure Registry where
  models : List (String × Model)
  scaler : Option Scaler

/-- The model-loading loop: load each named artifact in order; the first
failure raises, aborting the loop. -/
def loadLoop (loadM : String → Option Model) : List String → Option (List (String × Model))
  | [] => some []
  | n :: rest =>
    match loadM n with
    | none => none
    | some m => (loadLoop loadM rest).map (fun ms => (n, m) :: ms)

/-- Startup loading (`try`/`except FileNotFoundError` block in the
source): any load failure is caught and resets `models` to the empty
dict, with `scaler` left as `None`. -/
def loadAll (loadM : String → Option Model) (loadS : Option Scaler) : Registry :=
  match loadLoop loadM MODEL_NAMES with
  | none => ⟨[], none⟩
  | some ms =>
    match loadS with
    | none => ⟨[], none⟩
    | some s => ⟨ms, some s⟩

/-- The `if not models or not scaler` readiness check of `predict`. -/
def isReady (reg : Registry) : Bool :=
  !reg.models.isEmpty && reg.scaler.isSome

/-- Cause carried by the generic `except Exception` 500 response of the
prediction endpoint. -/
inductive PredCause where
  | keyError (missing : List String)
  | nonNumeric
  deriving DecidableEq

/-- The distinct error responses of the `/predict` endpoint: 503 not
ready, 404 unknown model, 400 missing file, 400 no valid rows, and the
generic 500 `Prediction error: ...` from the `except` clause. -/
inductive PredErr where
  | notReady
  | modelNotFound (name : String)
  | noFile
  | noValidRows
  | processingError (cause : PredCause)
  deriving DecidableEq

/-- The JSON success payload of `/predict`. -/
structure PredResult where
  model_used : String
  exoplanet_detected_count : ℕ
  no_exoplanet_detected_count : ℕ
  total_rows_predicted : ℕ
  accuracy : Option ℚ
  deriving DecidableEq

/-- The series `(data['koi_disposition'] == 'CONFIRMED').astype(int)`: the binary
label per row, kept with the row's original index. -/
def labelSeries (df : DataFrame) : List (ℕ × Bool) :=
  (List.range df.rows.length).map (fun i => (i, (cellAt df i "koi_disposition").isConfirmed))

/-- The selection `true_labels.loc[valid_indices]`: label lookup by original row index
for each retained row, in retained order. -/
def alignedLabels (df : DataFrame) : List Bool :=
  (validIndices df requiredFeatures).map (fun i => ((labelSeries df).lookup i).getD false)

/-- The numeric feature vector of row `i` over the 5 required columns. -/
def featureRow (df : DataFrame) (i : ℕ) : List ℚ :=
  requiredFeatures.map (fun c => (cellAt df i c).toRat)

/-- The selection `data.loc[valid_indices, required_features]`: feature matrix of the
retained rows, in retained order. -/
def featuresData (df : DataFrame) : List (List ℚ) :=
  (validIndices df requiredFeatures).map (featureRow df)

/-- The metric `accuracy_score(true_labels, predictions)`: fraction of agreeing
positions, as an exact rational. -/
def accFrac (ls : List Bool) (preds : List Bool) : ℚ :=
  (((ls.zip preds).countP (fun p => p.1 == p.2) : ℚ)) / ((preds.length : ℚ))

/-- The success payload assembled at the end of `predict`: predictions
on the scaled retained rows, positive/negative tallies, and the optional
accuracy (computed only when the ground-truth column was present and the
label count matches the prediction count). -/
def predictResult (sc : Scaler) (model : Model) (name : String) (df : DataFrame) : PredResult :=
  let preds := (featuresData df).map (fun v => model (sc v))
  let exo := preds.countP (fun b => b)
  let acc : Option ℚ :=
    if "koi_disposition" ∈ df.cols then
      (if preds.length = (alignedLabels df).length then
        some (accFrac (alignedLabels df) preds)
      else none)
    else none
  ⟨name, exo, preds.length - exo, preds.length, acc⟩

/-- The `/predict` endpoint: readiness check, model resolution with the
`'RandomForest'` default, file check, then the `try` body — ground-truth
labels if `koi_disposition` is a column, `dropna` over the required
features (a `KeyError` for a missing required column lands in the
generic `except`), the empty-result check, scaling, prediction, and
result assembly. -/
def predict (reg : Registry) (modelName : Option String) (file : Option DataFrame) :
    Except PredErr PredResult :=
  match reg.scaler with
  | none => .error .notReady
  | some sc =>
    if reg.models.isEmpty then .error .notReady
    else
      let name := modelName.getD "RandomForest"
      match reg.models.lookup name with
      | none => .error (.modelNotFound name)
      | some model =>
        match file with
        | none => .error .noFile
        | some df =>
          let missing := requiredFeatures.filter (fun c => !(df.cols.contains c))
          if missing.isEmpty then
            if (validIndices df requiredFeatures).isEmpty then .error .noValidRows
            else if numericOn df (validIndices df requiredFeatures) requiredFeatures then
              .ok (predictResult sc model name df)
            else .error (.processingError .nonNumeric)
          else .error (.processingError (.keyError missing))

/-! ## Disposition analysis (`/analyze`) -/

/-- Round a rational to the nearest integer, halves to even — the
rounding of `numpy`/`pandas.Series.round`. -/
def roundHalfEven (q : ℚ) : ℤ :=
  let f : ℤ := ⌊q⌋
  let r : ℚ := q - f
  if r < 1/2 then f
  else if 1/2 < r then f + 1
  else if f % 2 = 0 then f else f + 1

/-- Rounding `.round(2)` on a rational value. -/
def round2 (q : ℚ) : ℚ := ((roundHalfEven (q * 100) : ℚ)) / 100

/-- Error response of `/analyze`: the explicit 400 when the
`koi_disposition` column is absent. -/
inductive DispErr where
  | missingColumn
  deriving DecidableEq

/-- The full (unfiltered) disposition column of a table. -/
def dispColumn (df : DataFrame) : List Cell :=
  (List.range df.rows.length).map (fun i => cellAt df i "koi_disposition")

/-- The non-missing disposition values (`value_counts` drops NaN). -/
def dispVals (df : DataFrame) : List Cell :=
  (dispColumn df).filter (fun c => !c.isNa)

/-- The `/analyze` endpoint: requires the `koi_disposition` column, then
`value_counts(normalize=True) * 100`, rounded to 2 decimals, as a
mapping from each distinct non-missing value to its percentage share of
the non-missing rows. -/
def analyzeDisposition (df : DataFrame) : Except DispErr (List (Cell × ℚ)) :=
  if "koi_disposition" ∈ df.cols then
    let vals := dispVals df
    .ok ((vals.dedup).map (fun v => (v, round2 (100 * ((vals.count v : ℚ)) / ((vals.length : ℚ))))))
  else .error .missingColumn

/-! ## Visualization (`/visualize`) -/

/-- Radius histogram bin edges (`prad_bins`). -/
def pradBins : List ℚ := [0, 2, 6, 15, 30, 100, 2500]

/-- Radius histogram bucket names (`prad_labels`). -/
def pradLabels : List String :=
  ["<2 (Earths)", "2-6 (Super-Earths)", "6-15 (Neptunes)", "15-30 (Jupiters)",
   "30-100 (Giants)", ">100 (Stars/Errors)"]

/-- Stellar temperature histogram bin edges (`steff_bins`). -/
def steffBins : List ℚ := [0, 3700, 5200, 6000, 7500, 10000, 50000]

/-- Stellar temperature histogram bucket names (`steff_labels`). -/
def steffLabels : List String :=
  ["<3.7K (M-type)", "3.7-5.2K (K-type)", "5.2-6K (G-type)", "6-7.5K (F-type)",
   "7.5-10K (A-type)", ">10K (B/O-type)"]

/-- Worker for `cutIndex`: scan consecutive edge pairs, left-inclusive,
right-exclusive, tracking the bucket index. -/
def cutGo (q : ℚ) : ℕ → List ℚ → Option ℕ
  | i, a :: b :: rest => if a ≤ q ∧ q < b then some i else cutGo q (i + 1) (b :: rest)
  | _, _ => none

/-- Binning `pd.cut(x, bins=bins, right=False)`: the bucket index of `q`, or
none when `q` falls outside every `[bins i, bins (i+1))` interval. -/
def cutIndex (bins : List ℚ) (q : ℚ) : Option ℕ := cutGo q 0 bins

/-- The counts `value_counts().sort_index()` over the cut categories: one count per
named bucket, in bin-edge order (zero-count buckets included). -/
def bucketCounts (bins : List ℚ) (labels : List String) (vals : List ℚ) :
    List (String × ℕ) :=
  labels.enum.map (fun p => (p.2, vals.countP (fun q => cutIndex bins q == some p.1)))

/-- Cause carried by the generic `except Exception` 500 response of the
visualization endpoint. -/
inductive VizCause where
  | keyError (missing : List String)
  | nonNumeric
  | sampleLargerThanPopulation
  deriving DecidableEq

/-- Error responses of `/visualize` (all caught failures surface as the
generic 500 `Visualization error: ...`). -/
inductive VizErr where
  | processingError (cause : VizCause)
  deriving DecidableEq

/-- The JSON success payload of `/visualize`. -/
structure VizOk where
  radius_distribution : List (String × ℕ)
  period_vs_radius : List (ℚ × ℚ)
  star_temp_distribution : List (String × ℕ)
  deriving DecidableEq

/-- The columns the visualization endpoint `dropna`s over. -/
def vizColumns : List String := ["koi_prad", "koi_period", "koi_steff", "koi_disposition"]

/-- The visualization columns that must be numeric for `pd.cut`. -/
def numericVizCols : List String := ["koi_prad", "koi_period", "koi_steff"]

/-- Sampling `df.sample(n, random_state=42)` under the guard `n ≤ len(df)`: a
deterministic size-`n` selection from the rows.  The fixed seed makes
the selection a pure function of the input; which rows the Mersenne
Twister picks is implementation-defined, modelled here as the first
`n`. -/
def sampleSeed42 {α : Type} (l : List α) (n : ℕ) : List α := l.take n

/-- The `/visualize` endpoint: `dropna` over the four visualization
columns (a missing column raises `KeyError` into the generic `except`),
radius histogram, CONFIRMED-only scatter sample of size
`min(500, len(df))` (a pandas `ValueError` lands in the generic
`except` when that exceeds the CONFIRMED population), and the stellar
temperature histogram. -/
def visualize (df : DataFrame) : Except VizErr VizOk :=
  let missing := vizColumns.filter (fun c => !(df.cols.contains c))
  if missing.isEmpty then
    let cleanIdx := validIndices df vizColumns
    if numericOn df cleanIdx numericVizCols then
      let prads := cleanIdx.map (fun i => (cellAt df i "koi_prad").toRat)
      let radiusDist := bucketCounts pradBins pradLabels prads
      let confirmedIdx := cleanIdx.filter (fun i => (cellAt df i "koi_disposition").isConfirmed)
      let nSample := min 500 cleanIdx.length
      if confirmedIdx.length < nSample then
        .error (.processingError .sampleLargerThanPopulation)
      else
        let sampled := sampleSeed42 confirmedIdx nSample
        let scatter := sampled.map
          (fun i => ((cellAt df i "koi_period").toRat, (cellAt df i "koi_prad").toRat))
        let steffs := cleanIdx.map (fun i => (cellAt df i "koi_steff").toRat)
        .ok ⟨radiusDist, scatter, bucketCounts steffBins steffLabels steffs⟩
    else .error (.processingError .nonNumeric)
  else .error (.processingError (.keyError missing))

/-! ## Light-curve spectral analysis (`/lightcurve`) -/

/-- The uploaded light-curve table: header plus (time, flux) cell pairs. -/
structure LCFile where
  cols : List String
  rows : List (Option ℚ × Option ℚ)

/-- Error responses of `/lightcurve`: the explicit 400 for missing
`time`/`flux` columns and the explicit 400 for an invalid sampling
interval. -/
inductive LCErr where
  | missingColumns
  | invalidInterval
  deriving DecidableEq

/-- Pandas `df.dropna(subset=['time', 'flux'])`: keep the complete rows. -/
def lcClean (rows : List (Option ℚ × Option ℚ)) : List (ℚ × ℚ) :=
  rows.filterMap (fun p =>
    match p with
    | (some t, some fl) => some (t, fl)
    | _ => none)

/-- Pandas `df.sort_values(by='time')`: sort rows by time ascending. -/
def sortByTime (l : List (ℚ × ℚ)) : List (ℚ × ℚ) :=
  List.insertionSort (fun a b => a.1 ≤ b.1) l

/-- Pandas `series.diff()` (without its leading NaN): consecutive differences. -/
def diffs (l : List ℚ) : List ℚ := l.zipWith (fun a b => b - a) l.tail

/-- The value `df['time'].diff().mean()`: the mean of the `n - 1` consecutive
differences; NaN (`none`) when fewer than 2 points exist. -/
def meanInterval (ts : List ℚ) : Option ℚ :=
  if 2 ≤ ts.length then some ((diffs ts).sum / (((ts.length : ℚ)) - 1)) else none

/-- Worker for `everyNth`: countdown until the next retained element. -/
def everyNthAux {α : Type} (s : ℕ) : List α → ℕ → List α
  | [], _ => []
  | a :: l, 0 => a :: everyNthAux s l (s - 1)
  | _ :: l, c + 1 => everyNthAux s l c

/-- Python slicing `l[::s]`: every `s`-th element, starting at index 0. -/
def everyNth {α : Type} (l : List α) (s : ℕ) : List α := everyNthAux s l 0

/-- The mean `np.mean(flux)` over the cleaned series of length `n`. -/
def fluxMean (fluxes : List ℚ) (n : ℕ) : ℚ := fluxes.sum / ((n : ℚ))

/-- The series `flux - np.mean(flux)`: the mean-subtracted flux, as reals. -/
noncomputable def detrended (fluxes : List ℚ) (n : ℕ) : List ℝ :=
  fluxes.map (fun q => ((q : ℝ)) - (((fluxMean fluxes n : ℚ)) : ℝ))

/-- Coefficient `k` of the discrete Fourier transform of `x` (length
`n`), with the `np.fft.fft` sign convention. -/
noncomputable def dftCoeff (x : List ℝ) (n : ℕ) (k : ℕ) : ℂ :=
  ∑ j ∈ Finset.range n, ((x.getD j 0 : ℝ) : ℂ) *
    Complex.exp (Complex.I * (-2) * ((Real.pi : ℝ) : ℂ) * ((j : ℕ) : ℂ) * ((k : ℕ) : ℂ) / ((n : ℕ) : ℂ))

/-- One point of the reported spectrum: frequency (exact rational,
`k / (n * interval)`) and amplitude (`np.abs` of the transform
coefficient). -/
structure SpectralPoint where
  frequency : ℚ
  amplitude : ℝ

/-- The full-resolution positive-frequency spectrum: `np.fft.fftfreq(n,
d)` keeps bins `1 ≤ k ≤ (n - 1) / 2` strictly positive (bin 0 is zero,
bins above `(n - 1) / 2` are the negative/mirror frequencies), each with
the magnitude of the matching transform coefficient of the
mean-subtracted flux. -/
noncomputable def fullSpectrum (fluxes : List ℚ) (n : ℕ) (d : ℚ) : List SpectralPoint :=
  (List.range' 1 ((n - 1) / 2)).map
    (fun (k : ℕ) => ⟨((k : ℚ)) / (((n : ℚ)) * d), Complex.abs (dftCoeff (detrended fluxes n) n k)⟩)

/-- The JSON success payload of `/lightcurve`. -/
structure LCOk where
  light_curve : List (ℚ × ℚ)
  fourier_transform : List SpectralPoint

/-- The cleaned, time-sorted series of an uploaded light-curve table. -/
def lcSorted (f : LCFile) : List (ℚ × ℚ) := sortByTime (lcClean f.rows)

/-- The full-resolution positive-frequency spectrum of the cleaned,
time-sorted series, given the mean sampling interval `d`. -/
noncomputable def lcFullSpectrum (f : LCFile) (d : ℚ) : List SpectralPoint :=
  fullSpectrum ((lcSorted f).map Prod.snd) (lcSorted f).length d

/-- The `/lightcurve` endpoint: column check, `dropna`, time sort,
preview decimation with stride `max(1, n / 2000)`, mean-interval
validation, Fourier transform of the mean-subtracted flux, positive
frequencies only, and transport decimation of the spectrum with stride
`max(1, len / 1000)`. -/
noncomputable def analyzeLightCurve (f : LCFile) : Except LCErr LCOk :=
  if ["time", "flux"].all (fun c => f.cols.contains c) then
    match meanInterval ((lcSorted f).map Prod.fst) with
    | none => .error .invalidInterval
    | some d =>
      if d ≤ 0 then .error .invalidInterval
      else
        .ok ⟨everyNth (lcSorted f) (max 1 ((lcSorted f).length / 2000)),
             everyNth (lcFullSpectrum f d) (max 1 ((lcFullSpectrum f d).length / 1000))⟩
  else .error .missingColumns

/-! ## Concrete instances used by counterexamples and witnesses -/

/-- A cleaned visualization table with 2 complete rows, exactly one of
them CONFIRMED. -/
def c1df : DataFrame :=
  ⟨["koi_prad", "koi_period", "koi_steff", "koi_disposition"],
   [[.num 1, .num 10, .num 5000, .str "CONFIRMED"],
    [.num 3, .num 20, .num 6000, .str "FALSE POSITIVE"]]⟩

/-- A cleaned visualization table whose single row has a radius on the
upper bin edge (2500), outside every radius bucket. -/
def c2df : DataFrame :=
  ⟨["koi_prad", "koi_period", "koi_steff", "koi_disposition"],
   [[.num 2500, .num 10, .num 5000, .str "CONFIRMED"]]⟩

/-- A cleaned visualization table with one in-range CONFIRMED row. -/
def c2wdf : DataFrame :=
  ⟨["koi_prad", "koi_period", "koi_steff", "koi_disposition"],
   [[.num 1, .num 10, .num 5000, .str "CONFIRMED"]]⟩

/-! ## C1 -/

/-- C1: the scatter sample is drawn from the CONFIRMED rows and never
fails on account of the sample size.  The code violates this: it draws
`n = min(500, len(df))` — computed from the whole cleaned table — from
the CONFIRMED subset, so on `c1df` (2 cleaned rows, 1 CONFIRMED) pandas
raises `ValueError: Cannot take a larger sample than population`, which
surfaces as the generic 500 visualization error instead of returning the
single CONFIRMED row. -/
theorem c1_sample_size_failure :
    visualize c1df = .error (.processingError .sampleLargerThanPopulation) ∧
    ((validIndices c1df vizColumns).filter
        (fun i => (cellAt c1df i "koi_disposition").isConfirmed)).length = 1 := by
  exact ⟨rfl, rfl⟩

/-! ## C2 -/

/-- C2 counterexample: on `c2df` the cleaned row count is 1 but the six
radius bucket counts sum to 0, because the radius 2500 lies outside the
rightmost bucket `[100, 2500)`; the six temperature buckets do sum
to 1. -/
theorem c2_out_of_range_cex :
    (visualize c2df).map
        (fun r => (((r.radius_distribution.map Prod.snd).sum),
                   ((r.star_temp_distribution.map Prod.snd).sum))) = .ok (0, 1) ∧
    (validIndices c2df vizColumns).length = 1 := by
  exact ⟨rfl, rfl⟩

/-- Any bucket index produced by `cutGo` starting at accumulator `i` is
below `i` plus the number of bin gaps. -/
theorem cutGo_bound (q : ℚ) :
    ∀ (l : List ℚ) (i j : ℕ), cutGo q i l = some j → j + 1 < i + l.length := by
  intro l
  induction l with
  | nil => intro i j h; simp [cutGo] at h
  | cons a t ih =>
    cases t with
    | nil => intro i j h; simp [cutGo] at h
    | cons b rest =>
      intro i j h
      rw [cutGo] at h
      split at h
      · cases h
        simp only [List.length_cons]
        omega
      · have hrec := ih (i + 1) j h
        simp at hrec ⊢
        omega

/-- A bucket index of `pd.cut` is a strict index into the bin-gap
list. -/
theorem cutIndex_lt (bins : List ℚ) (q : ℚ) (j : ℕ) (h : cutIndex bins q = some j) :
    j + 1 < bins.length := by
  have := cutGo_bound q bins 0 j h
  omega

/-- With seven monotone bin edges, `pd.cut` assigns a bucket exactly to
the values in the outer interval `[b0, b6)`. -/
theorem cutIndex_isSome_iff (b0 b1 b2 b3 b4 b5 b6 : ℚ) (q : ℚ)
    (m1 : b0 ≤ b1) (m2 : b1 ≤ b2) (m3 : b2 ≤ b3) (m4 : b3 ≤ b4) (m5 : b4 ≤ b5) (m6 : b5 ≤ b6) :
    ((cutIndex [b0, b1, b2, b3, b4, b5, b6] q).isSome = true) ↔ (b0 ≤ q ∧ q < b6) := by
  simp only [cutIndex, cutGo]
  split_ifs with k1 k2 k3 k4 k5 k6
  · obtain ⟨ka, kb⟩ := k1
    simp
    exact ⟨by linarith, by linarith⟩
  · obtain ⟨ka, kb⟩ := k2
    simp
    exact ⟨by linarith, by linarith⟩
  · obtain ⟨ka, kb⟩ := k3
    simp
    exact ⟨by linarith, by linarith⟩
  · obtain ⟨ka, kb⟩ := k4
    simp
    exact ⟨by linarith, by linarith⟩
  · obtain ⟨ka, kb⟩ := k5
    simp
    exact ⟨by linarith, by linarith⟩
  · obtain ⟨ka, kb⟩ := k6
    simp
    exact ⟨by linarith, by linarith⟩
  · push_neg at k1 k2 k3 k4 k5 k6
    simp only [Option.isSome_none, Bool.false_eq_true, false_iff, not_and, not_lt]
    intro hq0
    exact k6 (k5 (k4 (k3 (k2 (k1 hq0)))))

/-- Worker for `bucket_sum`: the per-bucket counts, summed over all
bucket indices, count the values landing in some bucket. -/
theorem sum_countP_buckets (bins : List ℚ) (L : ℕ)
    (hb : ∀ q j, cutIndex bins q = some j → j < L) (vals : List ℚ) :
    (∑ i ∈ Finset.range L, vals.countP (fun q => cutIndex bins q == some i))
      = vals.countP (fun q => (cutIndex bins q).isSome) := by
  induction vals with
  | nil => simp
  | cons v vs ih =>
    simp only [List.countP_cons]
    rw [Finset.sum_add_distrib, ih]
    have hdelta : (∑ i ∈ Finset.range L,
        if (cutIndex bins v == some i) = true then 1 else 0)
        = (if (cutIndex bins v).isSome = true then 1 else 0) := by
      cases hc : cutIndex bins v with
      | none => simp
      | some j =>
        have hj := hb v j hc
        have hbeq : ∀ i : ℕ, ((some j == some i)) = (decide (j = i)) := by
          intro i
          by_cases hji : j = i <;> simp [hji]
        simp only [hbeq, decide_eq_true_eq, Option.isSome_some, if_true]
        rw [Finset.sum_ite_eq]
        simp [Finset.mem_range.mpr hj]
    omega

/-- The six bucket counts of a histogram sum to the number of values
that land in some bucket. -/
theorem bucket_sum (bins : List ℚ) (labels : List String) (vals : List ℚ)
    (hb : ∀ q j, cutIndex bins q = some j → j < labels.length) :
    ((bucketCounts bins labels vals).map Prod.snd).sum
      = vals.countP (fun q => (cutIndex bins q).isSome) := by
  have h1 : ((bucketCounts bins labels vals).map Prod.snd)
      = (List.range labels.length).map
          (fun i => vals.countP (fun q => cutIndex bins q == some i)) := by
    unfold bucketCounts
    rw [List.map_map]
    have h2 : (Prod.snd ∘ fun p : ℕ × String =>
        (p.2, vals.countP (fun q => cutIndex bins q == some p.1)))
        = (fun i => vals.countP (fun q => cutIndex bins q == some i)) ∘ Prod.fst := rfl
    rw [h2, ← List.map_map, List.enum_map_fst]
  rw [h1]
  show (∑ i ∈ Finset.range labels.length, vals.countP (fun q => cutIndex bins q == some i))
      = vals.countP (fun q => (cutIndex bins q).isSome)
  exact sum_countP_buckets bins labels.length hb vals

/-- The radius buckets cover exactly `[0, 2500)`. -/
theorem cut_prad_isSome (q : ℚ) :
    ((cutIndex pradBins q).isSome = true) ↔ (0 ≤ q ∧ q < 2500) := by
  have h := cutIndex_isSome_iff 0 2 6 15 30 100 2500 q (by norm_num) (by norm_num)
    (by norm_num) (by norm_num) (by norm_num) (by norm_num)
  simpa [pradBins] using h

/-- The temperature buckets cover exactly `[0, 50000)`. -/
theorem cut_steff_isSome (q : ℚ) :
    ((cutIndex steffBins q).isSome = true) ↔ (0 ≤ q ∧ q < 50000) := by
  have h := cutIndex_isSome_iff 0 3700 5200 6000 7500 10000 50000 q (by norm_num) (by norm_num)
    (by norm_num) (by norm_num) (by norm_num) (by norm_num)
  simpa [steffBins] using h

/-- The bucket names of a histogram are the labels, in bin-edge order. -/
theorem bucketCounts_map_fst (bins : List ℚ) (labels : List String) (vals : List ℚ) :
    (bucketCounts bins labels vals).map Prod.fst = labels := by
  unfold bucketCounts
  rw [List.map_map]
  have h : (Prod.fst ∘ fun p : ℕ × String =>
      (p.2, vals.countP (fun q => cutIndex bins q == some p.1)))
      = (Prod.snd : ℕ × String → String) := rfl
  rw [h, List.enum_map_snd]

/-- C2, amended: the six radius bucket counts sum to the number of
cleaned rows whose radius lies in `[0, 2500)` — not to the cleaned row
count, from which rows with an out-of-range radius are missing — and the
six temperature bucket counts sum to the number of cleaned rows whose
stellar temperature lies in `[0, 50000)`; bucket output order follows
boundary order. -/
theorem c2_bucket_sums (df : DataFrame) (r : VizOk) (h : visualize df = .ok r) :
    ((r.radius_distribution.map Prod.snd).sum
       = ((validIndices df vizColumns).map (fun i => (cellAt df i "koi_prad").toRat)).countP
           (fun q => decide (0 ≤ q) && decide (q < 2500)))
    ∧ ((r.star_temp_distribution.map Prod.snd).sum
       = ((validIndices df vizColumns).map (fun i => (cellAt df i "koi_steff").toRat)).countP
           (fun q => decide (0 ≤ q) && decide (q < 50000)))
    ∧ r.radius_distribution.map Prod.fst = pradLabels
    ∧ r.star_temp_distribution.map Prod.fst = steffLabels := by
  simp only [visualize] at h
  split at h
  · split at h
    · split at h
      · simp at h
      · rw [Except.ok.injEq] at h
        subst h
        refine ⟨?_, ?_, ?_, ?_⟩
        · rw [bucket_sum pradBins pradLabels _
            (fun q j hq => by
              have h7 := cutIndex_lt pradBins q j hq
              simp [pradBins] at h7
              simp [pradLabels]
              omega)]
          apply List.countP_congr
          intro a _
          rw [cut_prad_isSome]
          simp
        · rw [bucket_sum steffBins steffLabels _
            (fun q j hq => by
              have h7 := cutIndex_lt steffBins q j hq
              simp [steffBins] at h7
              simp [steffLabels]
              omega)]
          apply List.countP_congr
          intro a _
          rw [cut_steff_isSome]
          simp
        · exact bucketCounts_map_fst pradBins pradLabels _
        · exact bucketCounts_map_fst steffBins steffLabels _
    · simp at h
  · simp at h

/-- The visualization payload on the one-row table `c2wdf`. -/
def c2wres : VizOk :=
  ⟨[("<2 (Earths)", 1), ("2-6 (Super-Earths)", 0), ("6-15 (Neptunes)", 0),
    ("15-30 (Jupiters)", 0), ("30-100 (Giants)", 0), (">100 (Stars/Errors)", 0)],
   [(10, 1)],
   [("<3.7K (M-type)", 0), ("3.7-5.2K (K-type)", 1), ("5.2-6K (G-type)", 0),
    ("6-7.5K (F-type)", 0), ("7.5-10K (A-type)", 0), (">10K (B/O-type)", 0)]⟩

/-- C2 witness: the amended bucket-sum property instantiated on the
concrete one-row table. -/
theorem c2_bucket_sums_witness :
    visualize c2wdf = .ok c2wres ∧
    (((c2wres.radius_distribution.map Prod.snd).sum
       = ((validIndices c2wdf vizColumns).map (fun i => (cellAt c2wdf i "koi_prad").toRat)).countP
           (fun q => decide (0 ≤ q) && decide (q < 2500)))
    ∧ ((c2wres.star_temp_distribution.map Prod.snd).sum
       = ((validIndices c2wdf vizColumns).map (fun i => (cellAt c2wdf i "koi_steff").toRat)).countP
           (fun q => decide (0 ≤ q) && decide (q < 50000)))
    ∧ c2wres.radius_distribution.map Prod.fst = pradLabels
    ∧ c2wres.star_temp_distribution.map Prod.fst = steffLabels) :=
  ⟨rfl, c2_bucket_sums c2wdf c2wres rfl⟩

/-! ## Shared concrete artifacts for the prediction claims -/

/-- A concrete scaler artifact: the identity transform. -/
def idScaler : Scaler := fun v => v

/-- A concrete model artifact: predicts class 1 for every row. -/
def constTrue : Model := fun _ => true

/-- A ready registry holding one loaded model and the scaler. -/
def oneModelReg : Registry := ⟨[("RandomForest", constTrue)], some idScaler⟩

/-- A table with all 5 features and a ground-truth column; 3 complete
rows with dispositions CONFIRMED / FALSE POSITIVE / CANDIDATE. -/
def c3df : DataFrame :=
  ⟨["koi_period", "koi_duration", "koi_depth", "koi_insol", "koi_prad", "koi_disposition"],
   [[.num 1, .num 1, .num 1, .num 1, .num 1, .str "CONFIRMED"],
    [.num 2, .num 1, .num 1, .num 1, .num 1, .str "FALSE POSITIVE"],
    [.num 3, .num 1, .num 1, .num 1, .num 1, .str "CANDIDATE"]]⟩

/-- Rounding to 4 decimal places, as the claim states it. -/
def round4 (q : ℚ) : ℚ := (((round (q * 10000) : ℤ)) : ℚ) / 10000

/-! ## C3 -/

/-- C3 counterexample: with a ground-truth column and 1 of 3 rows
predicted correctly, the reported accuracy is exactly `1/3`, not
`1/3` rounded to 4 decimal places (`0.3333`); the code never rounds the
value placed in the response (only the log line formats it). -/
theorem c3_rounding_cex :
    (predict oneModelReg none (some c3df)).map (fun r => r.accuracy) = .ok (some (1/3))
    ∧ round4 (1/3) = 3333/10000
    ∧ ((3333/10000 : ℚ)) ≠ 1/3 := by
  refine ⟨rfl, ?_, by norm_num⟩
  unfold round4
  rw [round_eq]
  norm_num

/-- The fraction `accFrac` is a fraction in `[0, 1]` whenever there is at least one
prediction. -/
theorem accFrac_bounds (ls preds : List Bool) (h : 0 < preds.length) :
    0 ≤ accFrac ls preds ∧ accFrac ls preds ≤ 1 := by
  unfold accFrac
  constructor
  · apply div_nonneg
    · exact_mod_cast Nat.zero_le _
    · exact_mod_cast Nat.zero_le _
  · rw [div_le_one (by exact_mod_cast h)]
    have h1 : ((ls.zip preds).countP (fun p => p.1 == p.2)) ≤ (ls.zip preds).length :=
      List.countP_le_length _
    have h2 : (ls.zip preds).length ≤ preds.length := by
      rw [List.length_zip]
      omega
    exact_mod_cast le_trans h1 h2

/-- C3, amended: the reported accuracy is the exact (unrounded) fraction
of cleaned rows whose prediction matches the ground-truth label when the
ground-truth column is present; it is absent (`none`, a distinct unknown
state, not zero) when the column is missing; and whenever present it
lies in `[0, 1]`. -/
theorem c3_accuracy (reg : Registry) (mn : Option String) (df : DataFrame) (r : PredResult)
    (h : predict reg mn (some df) = .ok r) :
    (¬ "koi_disposition" ∈ df.cols → r.accuracy = none)
    ∧ ("koi_disposition" ∈ df.cols → ∃ sc model,
        reg.scaler = some sc
        ∧ reg.models.lookup (mn.getD "RandomForest") = some model
        ∧ r.accuracy = some (accFrac (alignedLabels df)
            ((featuresData df).map (fun v => model (sc v)))))
    ∧ (∀ a, r.accuracy = some a → 0 ≤ a ∧ a ≤ 1) := by
  simp only [predict] at h
  rcases hsc : reg.scaler with _ | sc <;> rw [hsc] at h
  · simp at h
  · by_cases hne : reg.models.isEmpty = true
    · simp [hne] at h
    · simp only [hne, Bool.false_eq_true, if_false] at h
      rcases hlk : reg.models.lookup (mn.getD "RandomForest") with _ | model <;>
        simp only [hlk] at h
      · simp at h
      · by_cases hmiss : (requiredFeatures.filter (fun c => !(df.cols.contains c))).isEmpty = true
        · rw [if_pos hmiss] at h
          by_cases hvalid : (validIndices df requiredFeatures).isEmpty = true
          · simp [hvalid] at h
          · simp only [hvalid, Bool.false_eq_true, if_false] at h
            by_cases hnum : numericOn df (validIndices df requiredFeatures) requiredFeatures = true
            · rw [if_pos hnum, Except.ok.injEq] at h
              subst h
              have hlen : 0 < ((featuresData df).map
                  (fun v => constTrue v)).length := by
                simp [featuresData]
                rw [List.length_pos]
                intro hnil
                rw [hnil] at hvalid
                simp at hvalid
              have hlenV : 0 < (validIndices df requiredFeatures).length := by
                rw [List.length_pos]
                intro hnil
                rw [hnil] at hvalid
                simp at hvalid
              refine ⟨?_, ?_, ?_⟩
              · intro hnd
                simp [predictResult, hnd]
              · intro hd
                refine ⟨sc, model, rfl, rfl, ?_⟩
                simp only [predictResult, if_pos hd]
                rw [if_pos]
                simp [alignedLabels, featuresData]
              · intro a ha
                simp only [predictResult] at ha
                by_cases hd : "koi_disposition" ∈ df.cols
                · rw [if_pos hd] at ha
                  rw [if_pos (by simp [alignedLabels, featuresData])] at ha
                  rw [Option.some.injEq] at ha
                  subst ha
                  exact accFrac_bounds _ _ (by simpa [featuresData] using hlenV)
                · rw [if_neg hd] at ha
                  simp at ha
            · simp [hnum] at h
        · rw [if_neg hmiss] at h
          simp at h

/-- The `/predict` payload on `oneModelReg` and `c3df`. -/
def c3res : PredResult := ⟨"RandomForest", 3, 0, 3, some (1/3)⟩

/-- C3 witness: the amended accuracy property instantiated on the
concrete ready registry and three-row table. -/
theorem c3_accuracy_witness :
    predict oneModelReg none (some c3df) = .ok c3res
    ∧ ((¬ "koi_disposition" ∈ c3df.cols → c3res.accuracy = none)
      ∧ ("koi_disposition" ∈ c3df.cols → ∃ sc model,
          oneModelReg.scaler = some sc
          ∧ oneModelReg.models.lookup ((none : Option String).getD "RandomForest") = some model
          ∧ c3res.accuracy = some (accFrac (alignedLabels c3df)
              ((featuresData c3df).map (fun v => model (sc v)))))
      ∧ (∀ a, c3res.accuracy = some a → 0 ≤ a ∧ a ≤ 1)) :=
  ⟨rfl, c3_accuracy oneModelReg none c3df c3res rfl⟩

/-! ## C4 -/

/-- A table lacking the required `koi_period` column. -/
def c4df : DataFrame :=
  ⟨["koi_duration", "koi_depth", "koi_insol", "koi_prad", "koi_disposition"],
   [[.num 1, .num 1, .num 1, .num 1, .str "CONFIRMED"]]⟩

/-- C4 counterexample: on a ready registry, a table missing the required
`koi_period` column makes `predict` fail with the generic caught
`KeyError` processing failure (HTTP 500 `Prediction error: ...`) — the
endpoint has no dedicated required-column-missing (SchemaError) response
at all, contradicting the claim. -/
theorem c4_generic_error_cex :
    predict oneModelReg none (some c4df)
      = .error (.processingError (.keyError ["koi_period"])) := rfl

/-- C4, amended: on a ready registry with the requested model loaded, a
prediction request on a table missing at least one of the 5 required
feature columns fails with the generic processing failure carrying the
pandas `KeyError` (the 500 `Prediction error: ...` response), not a
distinct required-column-missing error kind. -/
theorem c4_missing_feature_generic (reg : Registry) (mn : Option String) (df : DataFrame)
    (sc : Scaler) (model : Model)
    (hsc : reg.scaler = some sc)
    (hlk : reg.models.lookup (mn.getD "RandomForest") = some model)
    (hmiss : (requiredFeatures.filter (fun c => !(df.cols.contains c))).isEmpty = false) :
    predict reg mn (some df)
      = .error (.processingError (.keyError
          (requiredFeatures.filter (fun c => !(df.cols.contains c))))) := by
  have hne : reg.models.isEmpty = false := by
    cases hms : reg.models with
    | nil => rw [hms] at hlk; simp [List.lookup] at hlk
    | cons a t => simp
  simp only [predict, hsc]
  rw [if_neg (by simp [hne])]
  simp only [hlk]
  rw [if_neg (show ¬((requiredFeatures.filter
      (fun c => !(df.cols.contains c))).isEmpty = true) by
    rw [hmiss]
    exact Bool.false_ne_true)]

/-- C4 witness: the amended missing-column behaviour instantiated on the
concrete registry and the table lacking `koi_period`. -/
theorem c4_missing_feature_generic_witness :
    (oneModelReg.scaler = some idScaler
      ∧ oneModelReg.models.lookup ((none : Option String).getD "RandomForest") = some constTrue
      ∧ (requiredFeatures.filter (fun c => !(c4df.cols.contains c))).isEmpty = false)
    ∧ predict oneModelReg none (some c4df)
      = .error (.processingError (.keyError
          (requiredFeatures.filter (fun c => !(c4df.cols.contains c))))) :=
  ⟨⟨rfl, rfl, rfl⟩, c4_missing_feature_generic oneModelReg none c4df idScaler constTrue rfl rfl rfl⟩

/-! ## C5 -/

/-- Lookup over an index-tagged enumeration recovers the entry at
the looked-up index. -/
theorem lookup_enum_range' {α : Type} (f : ℕ → α) :
    ∀ (n s i : ℕ), s ≤ i → i < s + n →
      (((List.range' s n).map (fun j => (j, f j))).lookup i) = some (f i) := by
  intro n
  induction n with
  | zero => intro s i h1 h2; omega
  | succ m ih =>
    intro s i h1 h2
    rw [List.range'_succ]
    by_cases he : i = s
    · subst he
      simp [List.lookup]
    · have hne : (i == s) = false := by simp [he]
      simp only [List.map_cons, List.lookup, hne]
      exact ih (s + 1) i (by omega) (by omega)

/-- Label lookup by original row index returns that row's label. -/
theorem lookup_labelSeries (df : DataFrame) (i : ℕ) (hi : i < df.rows.length) :
    (labelSeries df).lookup i = some ((cellAt df i "koi_disposition").isConfirmed) := by
  unfold labelSeries
  rw [List.range_eq_range']
  exact lookup_enum_range' _ df.rows.length 0 i (by omega) (by omega)

/-- Every retained index is an index of an original row. -/
theorem validIndices_lt (df : DataFrame) (cols : List String) (i : ℕ)
    (h : i ∈ validIndices df cols) : i < df.rows.length := by
  unfold validIndices at h
  rcases List.mem_filter.mp h with ⟨h1, _⟩
  exact List.mem_range.mp h1

/-- C5: with the ground-truth column present, position `j` of the
aligned label list is the label of original row `validIndices[j]`, and
position `j` of the feature matrix is the feature vector of that same
original row — labels are realigned by row identity, so removing
incomplete rows never shifts a label onto another row's features. -/
theorem c5_label_alignment (df : DataFrame) (hcol : "koi_disposition" ∈ df.cols)
    (j : ℕ) (hj : j < (validIndices df requiredFeatures).length) :
    (alignedLabels df)[j]?
        = some ((cellAt df ((validIndices df requiredFeatures).getD j 0)
            "koi_disposition").isConfirmed)
    ∧ (featuresData df)[j]?
        = some (featureRow df ((validIndices df requiredFeatures).getD j 0)) := by
  have hget : (validIndices df requiredFeatures)[j]?
      = some ((validIndices df requiredFeatures).getD j 0) := by
    rw [List.getD_eq_getElem?_getD]
    rw [List.getElem?_eq_getElem hj]
    simp
  have hmem : (validIndices df requiredFeatures).getD j 0 ∈ validIndices df requiredFeatures := by
    rw [List.getD_eq_getElem?_getD, List.getElem?_eq_getElem hj]
    simpa using List.getElem_mem hj
  have hlt := validIndices_lt df requiredFeatures _ hmem
  constructor
  · unfold alignedLabels
    rw [List.getElem?_map, hget]
    simp only [Option.map_some']
    rw [lookup_labelSeries df _ hlt]
    simp
  · unfold featuresData
    rw [List.getElem?_map, hget]
    simp

/-- A table like `c3df` whose middle row is incomplete (missing
`koi_period`). -/
def c5df : DataFrame :=
  ⟨["koi_period", "koi_duration", "koi_depth", "koi_insol", "koi_prad", "koi_disposition"],
   [[.num 1, .num 1, .num 1, .num 1, .num 1, .str "CONFIRMED"],
    [.na, .num 1, .num 1, .num 1, .num 1, .str "CONFIRMED"],
    [.num 3, .num 1, .num 1, .num 1, .num 1, .str "FALSE POSITIVE"]]⟩

/-- C5 witness: after the incomplete middle row is dropped, position 1
of the aligned labels and features both come from original row 2. -/
theorem c5_label_alignment_witness :
    ("koi_disposition" ∈ c5df.cols ∧ 1 < (validIndices c5df requiredFeatures).length)
    ∧ ((alignedLabels c5df)[1]?
        = some ((cellAt c5df ((validIndices c5df requiredFeatures).getD 1 0)
            "koi_disposition").isConfirmed)
      ∧ (featuresData c5df)[1]?
        = some (featureRow c5df ((validIndices c5df requiredFeatures).getD 1 0))) :=
  ⟨⟨by decide, by decide⟩, c5_label_alignment c5df (by decide) 1 (by decide)⟩

/-! ## C8 -/

/-- C8: with the disposition column present, the analysis succeeds with
a mapping whose keys are exactly the distinct non-missing disposition
values and whose value for each key is its percentage share of the
non-missing rows (missing dispositions excluded from the denominator),
rounded to 2 decimal places; an empty or fully-missing column yields the
empty mapping, not an error. -/
theorem c8_disposition_distribution (df : DataFrame)
    (hcol : "koi_disposition" ∈ df.cols) :
    ∃ m, analyzeDisposition df = .ok m
      ∧ m.map Prod.fst = (dispVals df).dedup
      ∧ (∀ v p, (v, p) ∈ m → (v.isNa = false ∧
          p = round2 (100 * (((dispVals df).count v : ℚ)) / (((dispVals df).length : ℚ)))))
      ∧ ((dispVals df).length = 0 → m = []) := by
  refine ⟨((dispVals df).dedup).map
      (fun v => (v, round2 (100 * (((dispVals df).count v : ℚ)) / (((dispVals df).length : ℚ))))),
    ?_, ?_, ?_, ?_⟩
  · simp [analyzeDisposition, hcol]
  · rw [List.map_map]
    exact List.map_id _
  · intro v p hvp
    rcases List.mem_map.mp hvp with ⟨w, hw, heq⟩
    injection heq with h1 h2
    subst h1
    subst h2
    refine ⟨?_, rfl⟩
    have hwv : w ∈ dispVals df := List.mem_dedup.mp hw
    unfold dispVals at hwv
    rcases List.mem_filter.mp hwv with ⟨_, hna⟩
    simpa using hna
  · intro hlen
    have hnil : dispVals df = [] := List.length_eq_zero.mp hlen
    simp [hnil]

/-- A one-column table with two CONFIRMED rows, one missing disposition,
and one FALSE POSITIVE row. -/
def c8df : DataFrame :=
  ⟨["koi_disposition"],
   [[.str "CONFIRMED"], [.str "CONFIRMED"], [.na], [.str "FALSE POSITIVE"]]⟩

/-- C8 witness: the distribution property instantiated on the concrete
four-row disposition column. -/
theorem c8_disposition_distribution_witness :
    ("koi_disposition" ∈ c8df.cols)
    ∧ ∃ m, analyzeDisposition c8df = .ok m
      ∧ m.map Prod.fst = (dispVals c8df).dedup
      ∧ (∀ v p, (v, p) ∈ m → (v.isNa = false ∧
          p = round2 (100 * (((dispVals c8df).count v : ℚ)) / (((dispVals c8df).length : ℚ)))))
      ∧ ((dispVals c8df).length = 0 → m = []) :=
  ⟨by decide, c8_disposition_distribution c8df (by decide)⟩

/-! ## C9 -/

/-- If any named artifact fails to load, the loading loop raises. -/
theorem loadLoop_none (loadM : String → Option Model) :
    ∀ names : List String, (∃ n ∈ names, loadM n = none) → loadLoop loadM names = none := by
  intro names
  induction names with
  | nil =>
    rintro ⟨n, hn, _⟩
    cases hn
  | cons a t ih =>
    rintro ⟨n, hn, hnone⟩
    rcases List.mem_cons.mp hn with h | h
    · subst h
      simp [loadLoop, hnone]
    · cases hla : loadM a with
      | none => simp [loadLoop, hla]
      | some m => simp [loadLoop, hla, ih ⟨n, h, hnone⟩]

/-- If every named artifact loads, the loop returns them all, keyed by
name in order. -/
theorem loadLoop_some (loadM : String → Option Model) :
    ∀ names : List String, (∀ n ∈ names, (loadM n).isSome) →
      ∃ ms, loadLoop loadM names = some ms ∧ ms.map Prod.fst = names := by
  intro names
  induction names with
  | nil => exact fun _ => ⟨[], rfl, rfl⟩
  | cons a t ih =>
    intro hall
    rcases ih (fun n hn => hall n (List.mem_cons_of_mem a hn)) with ⟨ms, hms, hkeys⟩
    have ha := hall a (List.mem_cons_self a t)
    rcases hsm : loadM a with _ | m
    · rw [hsm] at ha
      simp at ha
    · exact ⟨(a, m) :: ms, by simp [loadLoop, hsm, hms], by simp [hkeys]⟩

/-- Dictionary lookup misses every name outside the key list. -/
theorem lookup_none_of_not_mem {β : Type} (name : String) :
    ∀ ms : List (String × β), name ∉ ms.map Prod.fst → ms.lookup name = none := by
  intro ms
  induction ms with
  | nil => exact fun _ => rfl
  | cons p t ih =>
    intro h
    obtain ⟨k, v⟩ := p
    simp only [List.map_cons, List.mem_cons] at h
    push_neg at h
    have hne : (name == k) = false := by simp [h.1]
    simp [List.lookup, hne, ih h.2]

/-- C9: if any of the five configured model artifacts or the scaler
fails to load at startup, the registry is not ready and every inference
request fails with the not-ready error; when everything loads, the
registry is ready and a request naming a model outside the fixed set of
five fails with the unknown-model error. -/
theorem c9_registry (loadM : String → Option Model) (loadS : Option Scaler) :
    (((∃ n ∈ MODEL_NAMES, loadM n = none) ∨ loadS = none) →
      isReady (loadAll loadM loadS) = false
      ∧ ∀ mn file, predict (loadAll loadM loadS) mn file = .error .notReady)
    ∧ ((∀ n ∈ MODEL_NAMES, (loadM n).isSome) → loadS.isSome →
      isReady (loadAll loadM loadS) = true
      ∧ ∀ name, name ∉ MODEL_NAMES → ∀ file,
          predict (loadAll loadM loadS) (some name) file = .error (.modelNotFound name)) := by
  constructor
  · intro hfail
    have hreg : loadAll loadM loadS = ⟨[], none⟩ := by
      rcases hfail with hm | hs
      · rw [loadAll, loadLoop_none loadM MODEL_NAMES hm]
      · rw [loadAll, hs]
        cases loadLoop loadM MODEL_NAMES <;> rfl
    rw [hreg]
    exact ⟨rfl, fun mn file => rfl⟩
  · intro hall hs
    rcases loadLoop_some loadM MODEL_NAMES hall with ⟨ms, hms, hkeys⟩
    rcases loadS with _ | s
    · simp at hs
    · have hreg : loadAll loadM (some s) = ⟨ms, some s⟩ := by
        rw [loadAll, hms]
      have hnil : ms ≠ [] := by
        intro hn
        rw [hn] at hkeys
        unfold MODEL_NAMES at hkeys
        simp at hkeys
      rw [hreg]
      constructor
      · simp [isReady, List.isEmpty_iff, hnil]
      · intro name hname file
        have hlk : ms.lookup name = none :=
          lookup_none_of_not_mem name ms (by rw [hkeys]; exact hname)
        simp only [predict]
        rw [if_neg (by simp [List.isEmpty_iff, hnil])]
        simp only [Option.getD_some, hlk]

/-- A loader that fails on the SVM artifact only. -/
def loadFailSVM : String → Option Model := fun n => if n == "SVM" then none else some constTrue

/-- A loader that loads every artifact. -/
def loadAllOk : String → Option Model := fun _ => some constTrue

/-- C9 witness: the registry property instantiated on a loader failing
on one of the five models, and on a fully successful loader with the
unknown model name "Foo". -/
theorem c9_registry_witness :
    (((∃ n ∈ MODEL_NAMES, loadFailSVM n = none) ∨ (some idScaler : Option Scaler) = none)
      ∧ isReady (loadAll loadFailSVM (some idScaler)) = false
      ∧ predict (loadAll loadFailSVM (some idScaler)) (some "RandomForest") (some c3df)
          = .error .notReady)
    ∧ ((∀ n ∈ MODEL_NAMES, (loadAllOk n).isSome) ∧ ((some idScaler : Option Scaler)).isSome
      ∧ ("Foo" ∉ MODEL_NAMES)
      ∧ isReady (loadAll loadAllOk (some idScaler)) = true
      ∧ predict (loadAll loadAllOk (some idScaler)) (some "Foo") (some c3df)
          = .error (.modelNotFound "Foo")) := by
  constructor
  · have h := (c9_registry loadFailSVM (some idScaler)).1 (Or.inl ⟨"SVM", by decide, rfl⟩)
    exact ⟨Or.inl ⟨"SVM", by decide, rfl⟩, h.1, h.2 _ _⟩
  · have h := (c9_registry loadAllOk (some idScaler)).2 (fun n _ => rfl) rfl
    exact ⟨fun n _ => rfl, rfl, by decide, h.1, h.2 "Foo" (by decide) _⟩

/-! ## C10 -/

/-- A successful prediction reports the resolved model name (the
requested one, or the `'RandomForest'` default). -/
theorem predict_ok_model_used (reg : Registry) (mn : Option String) (file : Option DataFrame)
    (r : PredResult) (h : predict reg mn file = .ok r) :
    r.model_used = mn.getD "RandomForest" := by
  simp only [predict] at h
  rcases hsc : reg.scaler with _ | sc <;> rw [hsc] at h
  · simp at h
  · by_cases hne : reg.models.isEmpty = true
    · simp [hne] at h
    · simp only [hne, Bool.false_eq_true, if_false] at h
      rcases hlk : reg.models.lookup (mn.getD "RandomForest") with _ | model <;>
        rcases file with _ | df <;> simp only [hlk] at h
      · simp at h
      · simp at h
      · simp at h
      · split_ifs at h with h1 h2 h3
        all_goals
          first
          | (rw [Except.ok.injEq] at h
             subst h
             rfl)
          | simp at h

/-- When the resolved model is present in the registry, a prediction
request never fails with the unknown-model error. -/
theorem predict_not_modelNotFound (reg : Registry) (mn : Option String) (file : Option DataFrame)
    (hrf : (reg.models.lookup (mn.getD "RandomForest")).isSome) (e : String) :
    predict reg mn file ≠ .error (.modelNotFound e) := by
  intro h
  simp only [predict] at h
  rcases hsc : reg.scaler with _ | sc <;> rw [hsc] at h
  · simp at h
  · by_cases hne : reg.models.isEmpty = true
    · simp [hne] at h
    · simp only [hne, Bool.false_eq_true, if_false] at h
      rcases Option.isSome_iff_exists.mp hrf with ⟨model, hm⟩
      rcases file with _ | df <;> simp only [hm] at h
      · simp at h
      · split_ifs at h <;> simp at h

/-- C10: a prediction request supplying no model name does not fail on
account of the model name — it behaves exactly as a request naming
"RandomForest": when that model is loaded it never yields the
unknown-model error, and any successful result reports "RandomForest"
as the model used. -/
theorem c10_default_model (reg : Registry) (file : Option DataFrame)
    (hrf : (reg.models.lookup "RandomForest").isSome) :
    predict reg none file = predict reg (some "RandomForest") file
    ∧ (∀ e, predict reg none file ≠ .error (.modelNotFound e))
    ∧ (∀ r, predict reg none file = .ok r → r.model_used = "RandomForest") :=
  ⟨rfl, fun e => predict_not_modelNotFound reg none file hrf e,
    fun r h => predict_ok_model_used reg none file r h⟩

/-- C10 witness: the defaulting property instantiated on the concrete
ready registry and table. -/
theorem c10_default_model_witness :
    ((oneModelReg.models.lookup "RandomForest").isSome = true)
    ∧ (predict oneModelReg none (some c3df) = predict oneModelReg (some "RandomForest") (some c3df)
      ∧ (∀ e, predict oneModelReg none (some c3df) ≠ .error (.modelNotFound e))
      ∧ (∀ r, predict oneModelReg none (some c3df) = .ok r → r.model_used = "RandomForest")) :=
  ⟨rfl, c10_default_model oneModelReg (some c3df) rfl⟩

/-! ## C6 -/

/-- A defined mean sampling interval needs at least 2 points. -/
theorem meanInterval_isSome_len (ts : List ℚ) (d : ℚ) (h : meanInterval ts = some d) :
    2 ≤ ts.length := by
  unfold meanInterval at h
  split at h
  · assumption
  · simp at h

/-- The mean sampling interval is NaN exactly on series with fewer than
2 points. -/
theorem meanInterval_none_iff (ts : List ℚ) : meanInterval ts = none ↔ ts.length < 2 := by
  unfold meanInterval
  by_cases h2 : 2 ≤ ts.length
  · rw [if_pos h2]
    exact iff_of_false (by simp) (by omega)
  · rw [if_neg h2]
    exact iff_of_true rfl (by omega)

/-- C6: the light-curve analysis (with both columns present) fails with
the invalid-interval error exactly when the mean of consecutive time
differences of the cleaned, time-sorted series is undefined (fewer than
2 points) or non-positive; otherwise it succeeds and computes the
spectrum. -/
theorem c6_invalid_interval_iff (f : LCFile)
    (hc : (["time", "flux"].all (fun c => f.cols.contains c)) = true) :
    (analyzeLightCurve f = .error .invalidInterval ↔
      ((lcSorted f).length < 2
        ∨ ∃ d, meanInterval ((lcSorted f).map Prod.fst) = some d ∧ d ≤ 0))
    ∧ (¬((lcSorted f).length < 2
        ∨ ∃ d, meanInterval ((lcSorted f).map Prod.fst) = some d ∧ d ≤ 0)
      → ∃ r, analyzeLightCurve f = .ok r) := by
  have hlen : ((lcSorted f).map Prod.fst).length = (lcSorted f).length := List.length_map _ _
  rcases hmi : meanInterval ((lcSorted f).map Prod.fst) with _ | d
  · have h2 : (lcSorted f).length < 2 := by
      rw [← hlen]
      exact (meanInterval_none_iff _).mp hmi
    have hval : analyzeLightCurve f = .error .invalidInterval := by
      simp only [analyzeLightCurve, hc, if_true, hmi]
    exact ⟨iff_of_true hval (Or.inl h2), fun hcon => absurd (Or.inl h2) hcon⟩
  · by_cases hd : d ≤ 0
    · have hval : analyzeLightCurve f = .error .invalidInterval := by
        simp only [analyzeLightCurve, hc, if_true, hmi, if_pos hd]
      exact ⟨iff_of_true hval (Or.inr ⟨d, rfl, hd⟩),
        fun hcon => absurd (Or.inr ⟨d, rfl, hd⟩) hcon⟩
    · have hok : ∃ r, analyzeLightCurve f = .ok r := by
        simp only [analyzeLightCurve, hc, if_true, hmi, if_neg hd]
        exact ⟨_, rfl⟩
      have hcond : ¬((lcSorted f).length < 2
          ∨ ∃ e, (some d : Option ℚ) = some e ∧ e ≤ 0) := by
        rintro (hlt | ⟨e, he, hle⟩)
        · have h2 := meanInterval_isSome_len _ _ hmi
          rw [hlen] at h2
          omega
        · rw [Option.some.injEq] at he
          subst he
          exact hd hle
      refine ⟨iff_of_false ?_ hcond, fun _ => hok⟩
      rcases hok with ⟨r, hr⟩
      rw [hr]
      simp

/-- A two-column light curve with a single point. -/
def lcW : LCFile := ⟨["time", "flux"], [(some 0, some 1)]⟩

/-- C6 witness: the raises-iff property instantiated on the concrete
one-point light curve (interval undefined). -/
theorem c6_invalid_interval_iff_witness :
    ((["time", "flux"].all (fun c => lcW.cols.contains c)) = true)
    ∧ ((analyzeLightCurve lcW = .error .invalidInterval ↔
        ((lcSorted lcW).length < 2
          ∨ ∃ d, meanInterval ((lcSorted lcW).map Prod.fst) = some d ∧ d ≤ 0))
      ∧ (¬((lcSorted lcW).length < 2
          ∨ ∃ d, meanInterval ((lcSorted lcW).map Prod.fst) = some d ∧ d ≤ 0)
        → ∃ r, analyzeLightCurve lcW = .ok r)) :=
  ⟨rfl, c6_invalid_interval_iff lcW rfl⟩

/-! ## C7 -/

/-- Slicing retains only original elements. -/
theorem everyNthAux_subset {α : Type} (s : ℕ) :
    ∀ (l : List α) (c : ℕ), ∀ x ∈ everyNthAux s l c, x ∈ l := by
  intro l
  induction l with
  | nil =>
    intro c x hx
    simp [everyNthAux] at hx
  | cons a t ih =>
    intro c x hx
    cases c with
    | zero =>
      simp only [everyNthAux] at hx
      rcases List.mem_cons.mp hx with h | h
      · exact h ▸ List.mem_cons_self a t
      · exact List.mem_cons_of_mem a (ih _ x h)
    | succ m =>
      simp only [everyNthAux] at hx
      exact List.mem_cons_of_mem a (ih m x hx)

/-- Length of a slice with countdown `c` and stride `s ≥ 1`. -/
theorem everyNthAux_length {α : Type} (s : ℕ) (hs : 1 ≤ s) :
    ∀ (l : List α) (c : ℕ), (everyNthAux s l c).length = (l.length - c + (s - 1)) / s := by
  intro l
  induction l with
  | nil =>
    intro c
    simp only [everyNthAux, List.length_nil]
    rw [Nat.div_eq_of_lt (by omega)]
  | cons a t ih =>
    intro c
    cases c with
    | zero =>
      simp only [everyNthAux, List.length_cons]
      rw [ih (s - 1)]
      have hr : t.length + 1 - 0 + (s - 1) = t.length + s := by omega
      rw [hr]
      rcases Nat.le_total (s - 1) t.length with hle | hle
      · have h1 : t.length - (s - 1) + (s - 1) = t.length := by omega
        rw [h1, Nat.add_div_right _ (by omega)]
      · have h1 : t.length - (s - 1) + (s - 1) = s - 1 := by omega
        rw [h1, Nat.div_eq_of_lt (by omega), Nat.add_div_right _ (by omega),
          Nat.div_eq_of_lt (by omega)]
    | succ m =>
      simp only [everyNthAux, List.length_cons]
      rw [ih m]
      congr 1
      omega

/-- Every element of `l[::s]` is an element of `l`. -/
theorem everyNth_subset {α : Type} (l : List α) (s : ℕ) : ∀ x ∈ everyNth l s, x ∈ l :=
  fun x hx => everyNthAux_subset s l 0 x hx

/-- The length `len(l[::s])` equals `ceil(len(l) / s)` for `s ≥ 1`. -/
theorem everyNth_length {α : Type} (l : List α) (s : ℕ) (hs : 1 ≤ s) :
    (everyNth l s).length = (l.length + (s - 1)) / s := by
  unfold everyNth
  rw [everyNthAux_length s hs l 0, Nat.sub_zero]

/-- Stride-1 slicing is the identity. -/
theorem everyNthAux_one {α : Type} : ∀ l : List α, everyNthAux 1 l 0 = l := by
  intro l
  induction l with
  | nil => rfl
  | cons a t ih =>
    simp only [everyNthAux]
    rw [ih]

/-- Slicing with stride 1: `l[::1] = l`. -/
theorem everyNth_one {α : Type} (l : List α) : everyNth l 1 = l := everyNthAux_one l

/-- The decimated spectrum length is bounded by 1999 (but not by 1000):
with stride `max 1 (L / 1000)`, a list of length `L` decimates to
`ceil(L / stride)` elements, which is at most 1999. -/
theorem decimated_le_1999 (L : ℕ) :
    (L + (max 1 (L / 1000) - 1)) / (max 1 (L / 1000)) ≤ 1999 := by
  by_cases hL : L < 2000
  · have h1 : L / 1000 ≤ 1 := by omega
    have hmax : max 1 (L / 1000) = 1 := Nat.max_eq_left h1
    rw [hmax]
    simp
    omega
  · push_neg at hL
    have h2 : 2 ≤ L / 1000 := by omega
    have hmax : max 1 (L / 1000) = L / 1000 := Nat.max_eq_right (by omega)
    rw [hmax]
    rw [Nat.div_le_iff_le_mul_add_pred (by omega)]
    omega

/-- C7, amended: every point of the returned spectrum has a strictly
positive frequency equal to `k / (n * interval)` for its bin `k`
(`1 ≤ k ≤ (n-1)/2`), a non-negative amplitude equal to the magnitude of
the corresponding transform coefficient of the mean-subtracted flux, and
the returned spectrum is the stride decimation (stride
`max(1, length/1000)`) of the full-resolution positive-frequency
spectrum, applied only after the transform — leaving at most 1999
points, not at most 1000 as claimed. -/
theorem c7_spectrum (f : LCFile) (r : LCOk) (h : analyzeLightCurve f = .ok r) :
    ∃ d, meanInterval ((lcSorted f).map Prod.fst) = some d ∧ 0 < d
      ∧ r.fourier_transform
          = everyNth (lcFullSpectrum f d) (max 1 ((lcFullSpectrum f d).length / 1000))
      ∧ r.fourier_transform.length ≤ 1999
      ∧ (∀ p ∈ r.fourier_transform, 0 < p.frequency ∧ 0 ≤ p.amplitude
          ∧ ∃ k : ℕ, 1 ≤ k ∧ k ≤ ((lcSorted f).length - 1) / 2
            ∧ p.frequency = ((k : ℚ)) / ((((lcSorted f).length : ℚ)) * d)
            ∧ p.amplitude = Complex.abs (dftCoeff
                (detrended ((lcSorted f).map Prod.snd) (lcSorted f).length)
                (lcSorted f).length k)) := by
  by_cases hc : (["time", "flux"].all (fun c => f.cols.contains c)) = true
  · simp only [analyzeLightCurve, hc, if_true] at h
    rcases hmi : meanInterval ((lcSorted f).map Prod.fst) with _ | d <;>
      simp only [hmi] at h
    · simp at h
    · by_cases hd : d ≤ 0
      · rw [if_pos hd] at h
        simp at h
      · rw [if_neg hd] at h
        rw [Except.ok.injEq] at h
        subst h
        push_neg at hd
        have hn2 : 2 ≤ (lcSorted f).length := by
          have h2 := meanInterval_isSome_len _ _ hmi
          rw [List.length_map] at h2
          exact h2
        refine ⟨d, rfl, hd, rfl, ?_, ?_⟩
        · rw [everyNth_length _ _ (le_max_left 1 _)]
          exact decimated_le_1999 _
        · intro p hp
          have hp2 := everyNth_subset _ _ p hp
          unfold lcFullSpectrum fullSpectrum at hp2
          rcases List.mem_map.mp hp2 with ⟨k, hk, heq⟩
          rcases List.mem_range'_1.mp hk with ⟨hk1, hk2⟩
          subst heq
          refine ⟨?_, Complex.abs.nonneg _, k, hk1, by omega, rfl, rfl⟩
          apply div_pos
          · exact_mod_cast hk1
          · apply mul_pos
            · exact_mod_cast (show 0 < (lcSorted f).length by omega)
            · exact hd
  · simp only [analyzeLightCurve, hc, Bool.false_eq_true, if_false] at h
    simp at h

/-- A two-point light curve (positive interval, empty spectrum). -/
def lcW2 : LCFile := ⟨["time", "flux"], [(some 0, some 1), (some 1, some 5)]⟩

/-- The analysis payload on `lcW2`. -/
def lcW2res : LCOk := ⟨[(0, 1), (1, 5)], []⟩

/-- The cleaned sorted series of `lcW2`. -/
theorem lcW2_sorted : lcSorted lcW2 = [(0, 1), (1, 5)] := by decide

/-- Evaluation of the analysis on `lcW2`. -/
theorem lcW2_eval : analyzeLightCurve lcW2 = .ok lcW2res := by
  have hmi : meanInterval ((lcSorted lcW2).map Prod.fst) = some 1 := by
    rw [lcW2_sorted]
    simp [meanInterval, diffs]
    norm_num
  have hfull : lcFullSpectrum lcW2 1 = [] := by
    unfold lcFullSpectrum fullSpectrum
    rw [lcW2_sorted]
    rfl
  unfold analyzeLightCurve
  rw [if_pos (show (["time", "flux"].all (fun c => lcW2.cols.contains c)) = true from rfl)]
  simp only [hmi]
  rw [if_neg (by norm_num : ¬((1 : ℚ) ≤ 0))]
  rw [lcW2_sorted, hfull]
  rfl

/-- C7 witness: the amended spectrum property instantiated on the
concrete two-point light curve. -/
theorem c7_spectrum_witness :
    analyzeLightCurve lcW2 = .ok lcW2res
    ∧ ∃ d, meanInterval ((lcSorted lcW2).map Prod.fst) = some d ∧ 0 < d
      ∧ lcW2res.fourier_transform
          = everyNth (lcFullSpectrum lcW2 d) (max 1 ((lcFullSpectrum lcW2 d).length / 1000))
      ∧ lcW2res.fourier_transform.length ≤ 1999
      ∧ (∀ p ∈ lcW2res.fourier_transform, 0 < p.frequency ∧ 0 ≤ p.amplitude
          ∧ ∃ k : ℕ, 1 ≤ k ∧ k ≤ ((lcSorted lcW2).length - 1) / 2
            ∧ p.frequency = ((k : ℚ)) / ((((lcSorted lcW2).length : ℚ)) * d)
            ∧ p.amplitude = Complex.abs (dftCoeff
                (detrended ((lcSorted lcW2).map Prod.snd) (lcSorted lcW2).length)
                (lcSorted lcW2).length k)) :=
  ⟨lcW2_eval, c7_spectrum lcW2 lcW2res lcW2_eval⟩

/-- Telescoping: the consecutive differences of a series sum to its last
element minus its first. -/
theorem diffs_sum : ∀ l : List ℚ, (diffs l).sum = l.getLast?.getD 0 - l.head?.getD 0 := by
  intro l
  induction l with
  | nil => simp [diffs]
  | cons a t ih =>
    cases t with
    | nil => simp [diffs]
    | cons b t2 =>
      have hstep : diffs (a :: b :: t2) = (b - a) :: diffs (b :: t2) := rfl
      rw [hstep, List.sum_cons, ih, List.getLast?_cons_cons]
      simp only [List.head?_cons, Option.getD_some]
      ring

/-- Cleaning a fully complete (time, flux) table keeps every row. -/
theorem lcClean_all_some : ∀ l : List ℕ,
    lcClean (l.map (fun (j : ℕ) => (some ((j : ℚ)), some (0 : ℚ))))
      = l.map (fun (j : ℕ) => (((j : ℚ)), (0 : ℚ))) := by
  intro l
  induction l with
  | nil => rfl
  | cons a t ih =>
    have hstep : lcClean ((a :: t).map (fun (j : ℕ) => (some ((j : ℚ)), some (0 : ℚ))))
        = (((a : ℚ)), (0 : ℚ)) :: lcClean (t.map (fun (j : ℕ) => (some ((j : ℚ)), some (0 : ℚ)))) := rfl
    rw [hstep, ih, List.map_cons]

/-- A light curve with 3999 complete, already-sorted points at unit
spacing and constant flux. -/
def c7file : LCFile :=
  ⟨["time", "flux"], (List.range 3999).map (fun (j : ℕ) => (some ((j : ℚ)), some (0 : ℚ)))⟩

/-- The cleaned, sorted series of `c7file` is its (already sorted) point
list. -/
theorem c7_sorted : lcSorted c7file = (List.range 3999).map (fun (j : ℕ) => (((j : ℚ)), (0 : ℚ))) := by
  show sortByTime (lcClean c7file.rows) = _
  have hrows : c7file.rows = (List.range 3999).map (fun (j : ℕ) => (some ((j : ℚ)), some (0 : ℚ))) := rfl
  rw [hrows, lcClean_all_some]
  apply List.Sorted.insertionSort_eq
  have hp : List.Pairwise (fun a b : ℚ × ℚ => a.1 ≤ b.1)
      ((List.range 3999).map (fun (j : ℕ) => (((j : ℚ)), (0 : ℚ)))) := by
    rw [List.pairwise_map]
    apply List.Pairwise.imp ?_ (List.pairwise_lt_range 3999)
    intro a b hab
    show ((a : ℚ)) ≤ ((b : ℚ))
    exact_mod_cast le_of_lt hab
  exact hp

/-- The mean sampling interval of `c7file` is exactly 1. -/
theorem c7_mi : meanInterval ((lcSorted c7file).map Prod.fst) = some 1 := by
  rw [c7_sorted, List.map_map]
  have hts : ((List.range 3999).map (Prod.fst ∘ fun (j : ℕ) => (((j : ℚ)), (0 : ℚ))))
      = (List.range 3999).map (fun (j : ℕ) => ((j : ℚ))) := rfl
  rw [hts]
  have hlen : ((List.range 3999).map (fun (j : ℕ) => ((j : ℚ)))).length = 3999 := by simp
  have hlast : ((List.range 3999).map (fun (j : ℕ) => ((j : ℚ)))).getLast? = some 3998 := by
    rw [List.getLast?_map]
    rw [(by norm_num : (3999 : ℕ) = 3998 + 1), List.range_succ, List.getLast?_concat]
    norm_num
  have hhead : ((List.range 3999).map (fun (j : ℕ) => ((j : ℚ)))).head? = some 0 := by
    rw [List.head?_map]
    rw [(by norm_num : (3999 : ℕ) = 3998 + 1), List.range_succ_eq_map]
    simp
  unfold meanInterval
  rw [if_pos (by rw [hlen]; norm_num)]
  rw [diffs_sum, hlast, hhead, hlen]
  norm_num

/-- C7 counterexample: on the 3999-point light curve the full
positive-frequency spectrum has 1999 points, the decimation stride is
`max(1, 1999 / 1000) = 1`, and the returned spectrum keeps all 1999
points — more than the "at most 1000" the claim asserts. -/
theorem c7_decimation_cex :
    (analyzeLightCurve c7file).map (fun r => r.fourier_transform.length) = .ok 1999
    ∧ ¬((1999 : ℕ) ≤ 1000) := by
  have hlenfull : (lcFullSpectrum c7file 1).length = 1999 := by
    unfold lcFullSpectrum fullSpectrum
    rw [List.length_map, c7_sorted]
    simp
  have hstride : max 1 ((lcFullSpectrum c7file 1).length / 1000) = 1 := by
    rw [hlenfull]
    rfl
  have hval : analyzeLightCurve c7file
      = .ok ⟨everyNth (lcSorted c7file) (max 1 ((lcSorted c7file).length / 2000)),
             everyNth (lcFullSpectrum c7file 1) (max 1 ((lcFullSpectrum c7file 1).length / 1000))⟩ := by
    unfold analyzeLightCurve
    rw [if_pos (show (["time", "flux"].all (fun c => c7file.cols.contains c)) = true from rfl)]
    simp only [c7_mi]
    rw [if_neg (by norm_num : ¬((1 : ℚ) ≤ 0))]
  constructor
  · rw [hval]
    simp only [Except.map]
    rw [hstride, everyNth_one, hlenfull]
  · norm_num

end Exo
